import Mathlib

/-!
Shallow embedding of the market-dashboard program (`yahoo_query.py`): OHLC candles,
the negative-index lookback predicates, the FTSE shifted-mode daily resampler, the
weekly resampler, the column normalizer, and the per-instrument batch loop.

Prices are modelled as rationals.  A pandas operation that can raise (negative
`iloc` beyond the series length) is modelled as returning `none`; total library
functions stay total.  Timestamps are whole hours since the epoch (UTC), so one
calendar day is 24 ticks and the epoch day (1970-01-01) is a Thursday.
-/

namespace MarketDashboard

/-- One OHLC candle, the row schema produced by the normalizer
(`Open`/`High`/`Low`/`Close` columns of the dataframe). -/
structure Candle where
  Open : ℚ
  High : ℚ
  Low : ℚ
  Close : ℚ
deriving DecidableEq

/-- Pandas `xs.iloc[-k]`: the k-th element from the end; `none` models the
`IndexError` raised when the series is shorter than `k`. -/
def ilocNeg {α : Type} (k : Nat) (xs : List α) : Option α :=
  if 0 < k ∧ k ≤ xs.length then xs.get? (xs.length - k) else none

/-- Pandas `xs.tail(n)`: the last `min n xs.length` elements. -/
def tailN {α : Type} (n : Nat) (xs : List α) : List α :=
  xs.drop (xs.length - n)

/-- Source `is_high_of_month` (line 98):
`data["High"].iloc[-2] == data["High"].tail(22).max()`. -/
def is_high_of_month (data : List Candle) : Option Bool :=
  (ilocNeg 2 (data.map Candle.High)).map
    (fun (h : ℚ) => decide ((h : WithBot ℚ) = (tailN 22 (data.map Candle.High)).maximum))

/-- Source `is_high_of_week` (line 99):
`data["High"].iloc[-2] == data["High"].tail(5).max()`. -/
def is_high_of_week (data : List Candle) : Option Bool :=
  (ilocNeg 2 (data.map Candle.High)).map
    (fun (h : ℚ) => decide ((h : WithBot ℚ) = (tailN 5 (data.map Candle.High)).maximum))

/-- Source `is_low_of_month` (line 100):
`data["Low"].iloc[-2] == data["Low"].tail(22).min()`. -/
def is_low_of_month (data : List Candle) : Option Bool :=
  (ilocNeg 2 (data.map Candle.Low)).map
    (fun (l : ℚ) => decide ((l : WithTop ℚ) = (tailN 22 (data.map Candle.Low)).minimum))

/-- Source `is_low_of_week` (line 101):
`data["Low"].iloc[-2] == data["Low"].tail(5).min()`. -/
def is_low_of_week (data : List Candle) : Option Bool :=
  (ilocNeg 2 (data.map Candle.Low)).map
    (fun (l : ℚ) => decide ((l : WithTop ℚ) = (tailN 5 (data.map Candle.Low)).minimum))

/-- Source `is_red_day` (line 102):
`data["Close"].iloc[-2] < data["Open"].iloc[-2] if len(data) > 1 else False`.
Total: the guard makes the short-series case `False` instead of raising. -/
def is_red_day (data : List Candle) : Bool :=
  if 1 < data.length then
    match ilocNeg 2 data with
    | some c => decide (c.Close < c.Open)
    | none => false
  else false

/-- Source `is_green_day` (line 103):
`data["Close"].iloc[-2] > data["Open"].iloc[-2] if len(data) > 1 else False`. -/
def is_green_day (data : List Candle) : Bool :=
  if 1 < data.length then
    match ilocNeg 2 data with
    | some c => decide (c.Open < c.Close)
    | none => false
  else false

/-- Source `is_inside_day` (lines 104-105), with no length guard:
`data["High"].iloc[-2] <= data["High"].iloc[-3] and data["Low"].iloc[-2] >= data["Low"].iloc[-3]`.
`none` models the `IndexError` raised when fewer than 3 candles exist. -/
def is_inside_day (data : List Candle) : Option Bool :=
  match ilocNeg 2 data, ilocNeg 3 data with
  | some c2, some c3 => some (decide (c2.High ≤ c3.High) && decide (c3.Low ≤ c2.Low))
  | _, _ => none

/-- A time-indexed bar: (timestamp in whole hours since epoch UTC, OHLC values). -/
abbrev Bar := Int × Candle

/-- The `.agg({"Open": "first", "High": "max", "Low": "min", "Close": "last"})`
aggregation over the bars of one resample bin; `none` for an empty bin
(such bins are removed by `.dropna()`). -/
def aggOHLC : List Candle → Option Candle
  | [] => none
  | c :: cs =>
    some
      { Open := c.Open
        High := cs.foldl (fun m x => max m x.High) c.High
        Low := cs.foldl (fun m x => min m x.Low) c.Low
        Close := (cs.getLastD c).Close }

/-- The UTC calendar day containing hour `t` (floor division by 24). -/
def dayKey (t : Int) : Int := t.fdiv 24

/-- The pandas `"W"` (week ending Sunday) bin of hour `t`: day 0 of the epoch is a
Thursday, so days `7w - 3 .. 7w + 3` (Monday..Sunday) share the key `w`. -/
def weekKey (t : Int) : Int := (dayKey t + 3).fdiv 7

/-- `resample(...).agg({first, max, min, last}).dropna()`: group the bars by
`key` of their timestamp, emit one aggregated candle per non-empty bin,
timestamped at `label` of the bin key.  On chronologically sorted input the
bins appear in increasing key order. -/
def resampleAgg (key : Int → Int) (label : Int → Int) (bars : List Bar) : List Bar :=
  ((bars.map (fun b => key b.1)).dedup).filterMap (fun k =>
    (aggOHLC ((bars.filter (fun b => key b.1 == k)).map Prod.snd)).map
      (fun c => (label k, c)))

/-- Source `get_data`, `^FTSE` shifted-mode branch (lines 35-45): subtract 2 hours
from every timestamp, resample to UTC calendar days with first/max/min/last,
drop empty days, and add the 2 hours back to the daily index.  The bin of a bar
at hour `t` is therefore `dayKey (t - 2)` and its daily label `24 * k + 2`. -/
def ftseDaily (bars : List Bar) : List Bar :=
  resampleAgg (fun t => dayKey (t - 2)) (fun k => 24 * k + 2) bars

/-- Source `get_weekly_data` (lines 64-67): `data.resample("W").agg(...).dropna()`
over the daily candle series; the label is the Sunday ending week `w`
(day `7 * w + 3`, hour `24 * (7 * w + 3)`). -/
def get_weekly_data (data : List Bar) : List Bar :=
  resampleAgg weekKey (fun w => 24 * (7 * w + 3)) data

/-- Source `is_inside_week` (lines 69-74): false when the derived weekly series has
fewer than 2 candles, else compares the last weekly candle against the prior one. -/
def is_inside_week (data : List Bar) : Bool :=
  let weekly := get_weekly_data data
  if weekly.length < 2 then false
  else
    match ilocNeg 1 weekly, ilocNeg 2 weekly with
    | some w1, some w2 => decide (w1.2.High ≤ w2.2.High) && decide (w2.2.Low ≤ w1.2.Low)
    | _, _ => false

/-- The derived categorical signal of `analyze_symbol` (lines 115-126): compute
high-of-month, low-of-month, red-day, green-day on the daily series, then
SHORT if hom and frd, else LONG if lom and fgd, else no signal.  `none` models
the propagated `IndexError` of the of-month predicates on series shorter than 2. -/
inductive Signal
  | SHORT
  | LONG
  | noSignal
deriving DecidableEq

/-- The signal computation of `analyze_symbol` as a function of the daily series. -/
def signal_of (data : List Candle) : Option Signal :=
  match is_high_of_month data, is_low_of_month data with
  | some hom, some lom =>
    some
      (if hom && is_red_day data then Signal.SHORT
       else if lom && is_green_day data then Signal.LONG
       else Signal.noSignal)
  | _, _ => none

/-! ## Column normalizer (`get_data`, lines 17-26) -/

/-- The raw column header of the downloaded frame: a flat list of labels, or a
two-level `MultiIndex` of (outer, inner) label pairs. -/
inductive RawCols
  | single : List String → RawCols
  | multi : List (String × String) → RawCols
deriving DecidableEq

/-- Line 17-18: `if isinstance(data.columns, pd.MultiIndex): columns = [col[1] for col in columns]`. -/
def collapseMulti : RawCols → List String
  | .single cs => cs
  | .multi cs => cs.map Prod.snd

/-- The canonical positional names of line 20. -/
def canonical5 : List String := ["Open", "High", "Low", "Close", "Volume"]

/-- Line 19 condition: `len(data.columns) >= 5 and len(set(data.columns)) == 1`. -/
def rule2Cond (cols : List String) : Bool :=
  decide (5 ≤ cols.length) && decide (cols.dedup.length = 1)

/-- Line 21 condition: `all("_" in str(c) for c in data.columns)`. -/
def rule3Cond (cols : List String) : Bool :=
  cols.all (fun c => c.contains (Char.ofNat 95))

/-- Python `str.title()` on ASCII text: uppercase a letter that follows a
non-letter, lowercase a letter that follows a letter. -/
def pyTitle (s : String) : String :=
  let step : Bool × List Char → Char → Bool × List Char := fun p ch =>
    if ch.isAlpha then (true, (if p.1 then ch.toLower else ch.toUpper) :: p.2)
    else (false, ch :: p.2)
  String.mk ((s.toList.foldl step (false, [])).2).reverse

/-- Line 22: `[str(c).split("_")[-1].title() for c in data.columns]`. -/
def rule3Apply (cols : List String) : List String :=
  cols.map (fun c => pyTitle ((c.splitOn "_").getLastD ""))

/-- Line 23 condition: `{"Open","High","Low","Close"}.issubset(set(data.columns))`. -/
def requiredPresent (cols : List String) : Bool :=
  ["Open", "High", "Low", "Close"].all (fun r => cols.contains r)

/-- Lines 24-25: assign the first `min 4 n` columns positionally, keep the rest. -/
def rule4Apply (cols : List String) : List String :=
  let pre := ["Open", "High", "Low", "Close"].take cols.length
  pre ++ cols.drop pre.length

/-- Line 26: `rename(columns={"Adj Close": "Close", "AdjClose": "Close"})`. -/
def renameAdj (c : String) : String :=
  if c = "Adj Close" ∨ c = "AdjClose" then "Close" else c

/-- The full column-repair pipeline of `get_data` lines 17-26: the MultiIndex
collapse is an unconditional first step (its own `if` statement), lines 19-25
are one `if`/`elif`/`elif` chain on the collapsed labels, and the Adj-Close
rename always runs last.  A pandas columns assignment requires the new label
list to match the column count; rule 2's literal 5-name slice is the only
branch whose list can be shorter (6 or more identically-labeled columns), and
`none` models the `ValueError` (length mismatch) it raises there.  Rules 1, 3
and 4 always produce exactly one label per column. -/
def fix_columns (raw : RawCols) : Option (List String) :=
  let cols := collapseMulti raw
  let cols2 :=
    if rule2Cond cols then
      if (canonical5.take cols.length).length = cols.length then
        some (canonical5.take cols.length)
      else none
    else if rule3Cond cols then some (rule3Apply cols)
    else if requiredPresent cols then some cols
    else some (rule4Apply cols)
  cols2.map (fun cs => cs.map renameAdj)

/-! ## Batch loop (`main`, lines 197-223) -/

/-- Outcome of the pre-flight `yf.download(sym, period="5d", interval="1d")`:
a non-empty frame, an empty/`None` frame, or a raised exception. -/
inductive Preflight
  | ok
  | empty
  | raised
deriving DecidableEq

/-- The value of a boolean flag cell in a result row. -/
inductive Cell
  | tick
  | cross
  | noData
  | errCell
deriving DecidableEq

/-- The value of the Signal cell in a result row: the SHORT span, the LONG span,
the dash (also used by the no-data template), or the string "Error". -/
inductive SigCell
  | short
  | long
  | dash
  | errSig
deriving DecidableEq

/-- One result row of the dashboard table. -/
structure Row where
  asset : String
  symbol : String
  signal : SigCell
  insideWeek : Cell
  insidePW : Cell
  hom : Cell
  how : Cell
  frd : Cell
  lom : Cell
  low : Cell
  fgd : Cell
  insideDay : Cell
deriving DecidableEq

/-- The dict returned by a successful `analyze_symbol`: the signal and the nine
boolean predicate values (each rendered as TICK/CROSS in the row). -/
structure AnalyzeRow where
  symbol : String
  signal : Signal
  insideWeek : Bool
  insidePW : Bool
  hom : Bool
  how : Bool
  frd : Bool
  lom : Bool
  low : Bool
  fgd : Bool
  insideDay : Bool

/-- `TICK if b else CROSS`. -/
def renderFlag (b : Bool) : Cell := if b then Cell.tick else Cell.cross

/-- The Signal cell of a full-analysis row. -/
def sigCellOf : Signal → SigCell
  | .SHORT => SigCell.short
  | .LONG => SigCell.long
  | .noSignal => SigCell.dash

/-- Lines 189-195 and 212: the `no_data_template` row (Signal is the dash). -/
def noDataRow (name sym : String) : Row :=
  { asset := name, symbol := sym, signal := SigCell.dash,
    insideWeek := Cell.noData, insidePW := Cell.noData, hom := Cell.noData,
    how := Cell.noData, frd := Cell.noData, lom := Cell.noData,
    low := Cell.noData, fgd := Cell.noData, insideDay := Cell.noData }

/-- Lines 221-222: every key of the template set to "Error", Signal included. -/
def errorRow (name sym : String) : Row :=
  { asset := name, symbol := sym, signal := SigCell.errSig,
    insideWeek := Cell.errCell, insidePW := Cell.errCell, hom := Cell.errCell,
    how := Cell.errCell, frd := Cell.errCell, lom := Cell.errCell,
    low := Cell.errCell, fgd := Cell.errCell, insideDay := Cell.errCell }

/-- Lines 216-217: the successful analysis dict with `res["Asset"] = name`. -/
def fullRow (name : String) (a : AnalyzeRow) : Row :=
  { asset := name, symbol := a.symbol, signal := sigCellOf a.signal,
    insideWeek := renderFlag a.insideWeek, insidePW := renderFlag a.insidePW,
    hom := renderFlag a.hom, how := renderFlag a.how, frd := renderFlag a.frd,
    lom := renderFlag a.lom, low := renderFlag a.low, fgd := renderFlag a.fgd,
    insideDay := renderFlag a.insideDay }

/-- The body of the inner loop of `main` (lines 201-223) for one instrument:
a failed or empty pre-flight appends the no-data row and skips analysis; an
analysis that raises (`ana = none`) appends the all-Error row; otherwise the
full row is appended.  Exactly one row results in every case. -/
def processSymbol (name sym : String) (pre : Preflight) (ana : Option AnalyzeRow) : Row :=
  match pre with
  | .empty => noDataRow name sym
  | .raised => noDataRow name sym
  | .ok =>
    match ana with
    | some a => fullRow name a
    | none => errorRow name sym

/-- The inner loop of `main` over one group: one row per configured (symbol, name)
pair, with the pre-flight and analysis outcomes supplied per symbol. -/
def runGroup (symbols : List (String × String)) (pre : String → Preflight)
    (ana : String → Option AnalyzeRow) : List Row :=
  symbols.map (fun p => processSymbol p.2 p.1 (pre p.1) (ana p.1))

/-! ## Reference definitions used to state claims -/

/-- Comparison of the last-closed candle against the extreme over the ENTIRE
series (no 22/5-candle window); used to state how `tail` silently truncates. -/
def highVsAll (data : List Candle) : Option Bool :=
  (ilocNeg 2 (data.map Candle.High)).map
    (fun (h : ℚ) => decide ((h : WithBot ℚ) = (data.map Candle.High).maximum))

/-- Low-side counterpart of `highVsAll`. -/
def lowVsAll (data : List Candle) : Option Bool :=
  (ilocNeg 2 (data.map Candle.Low)).map
    (fun (l : ℚ) => decide ((l : WithTop ℚ) = (data.map Candle.Low).minimum))

/-- Replace the High of the candle at (non-negative) position `j` by `v`,
leaving everything else unchanged; the perturbation used by the claim about
the of-month window. -/
def setHighAt : List Candle → Nat → ℚ → List Candle
  | [], _, _ => []
  | c :: cs, 0, v => { c with High := v } :: cs
  | c :: cs, j + 1, v => c :: setHighAt cs j v

/-- A synthetic 30-candle daily series whose index -2 candle (position 28) holds
the maximum High (9) of the last 22 candles; all other candles are flat. -/
def exMonthSeries : List Candle :=
  List.replicate 28 ⟨1, 2, 0, 1⟩ ++ [⟨1, 9, 0, 1⟩, ⟨1, 2, 0, 1⟩]

/-- Row classifiers for the batch-loop claim. -/
def isTickCross (c : Cell) : Bool := c == Cell.tick || c == Cell.cross

/-- A row all of whose flags carry the no-data marker, with the dash signal. -/
def isNoDataRow (r : Row) : Bool :=
  r.signal == SigCell.dash && r.insideWeek == Cell.noData && r.insidePW == Cell.noData &&
  r.hom == Cell.noData && r.how == Cell.noData && r.frd == Cell.noData &&
  r.lom == Cell.noData && r.low == Cell.noData && r.fgd == Cell.noData &&
  r.insideDay == Cell.noData

/-- A row all of whose cells, the signal included, carry the error marker. -/
def isErrorRow (r : Row) : Bool :=
  r.signal == SigCell.errSig && r.insideWeek == Cell.errCell && r.insidePW == Cell.errCell &&
  r.hom == Cell.errCell && r.how == Cell.errCell && r.frd == Cell.errCell &&
  r.lom == Cell.errCell && r.low == Cell.errCell && r.fgd == Cell.errCell &&
  r.insideDay == Cell.errCell

/-- A full-analysis row: every flag is a tick or a cross and the signal is one of
the three analyze outcomes. -/
def isFullRow (r : Row) : Bool :=
  (r.signal == SigCell.short || r.signal == SigCell.long || r.signal == SigCell.dash) &&
  isTickCross r.insideWeek && isTickCross r.insidePW && isTickCross r.hom &&
  isTickCross r.how && isTickCross r.frd && isTickCross r.lom &&
  isTickCross r.low && isTickCross r.fgd && isTickCross r.insideDay

/-! ## Helper lemmas -/

/-- A successful negative `iloc` needs the series to be at least `k` long. -/
lemma ilocNeg_some_len {α : Type} {k : Nat} {xs : List α} {a : α}
    (h : ilocNeg k xs = some a) : 0 < k ∧ k ≤ xs.length := by
  by_contra hc
  rw [ilocNeg, if_neg hc] at h
  exact absurd h (by simp)

/-- On a long-enough series, negative `iloc` returns the element it indexes. -/
lemma ilocNeg_some_of_le {α : Type} {k : Nat} (xs : List α) (h0 : 0 < k)
    (h : k ≤ xs.length) :
    ∃ hk : xs.length - k < xs.length, ilocNeg k xs = some (xs.get ⟨xs.length - k, hk⟩) := by
  have hk : xs.length - k < xs.length := by omega
  exact ⟨hk, by rw [ilocNeg, if_pos ⟨h0, h⟩]; exact List.get?_eq_get hk⟩

/-- `tail n` of a series no longer than `n` is the whole series. -/
lemma tailN_of_le {α : Type} {n : Nat} {xs : List α} (h : xs.length ≤ n) :
    tailN n xs = xs := by
  simp [tailN, Nat.sub_eq_zero_of_le h]

/-- The elements of `tail n` are exactly those at positions `length - n` and up. -/
lemma mem_tailN {α : Type} {n : Nat} {xs : List α} {a : α} :
    a ∈ tailN n xs ↔
      ∃ i, ∃ hi : i < xs.length, xs.length - n ≤ i ∧ xs.get ⟨i, hi⟩ = a := by
  unfold tailN
  constructor
  · intro hmem
    obtain ⟨⟨j, hj⟩, hget⟩ := List.mem_iff_get.mp hmem
    have hj2 : j < xs.length - (xs.length - n) := by simpa using hj
    have hlt : xs.length - n + j < xs.length := by omega
    refine ⟨xs.length - n + j, hlt, by omega, ?_⟩
    have key : xs.get ⟨xs.length - n + j, hlt⟩ =
        (xs.drop (xs.length - n)).get ⟨j, hj⟩ := List.get_drop xs hlt
    rw [key, hget]
  · rintro ⟨i, hi, hni, hget⟩
    apply List.mem_iff_get.mpr
    have hlt : xs.length - n + (i - (xs.length - n)) < xs.length := by omega
    have hj : i - (xs.length - n) < (xs.drop (xs.length - n)).length := by
      rw [List.length_drop]; omega
    refine ⟨⟨i - (xs.length - n), hj⟩, ?_⟩
    have key : xs.get ⟨xs.length - n + (i - (xs.length - n)), hlt⟩ =
        (xs.drop (xs.length - n)).get ⟨i - (xs.length - n), hj⟩ := List.get_drop xs hlt
    rw [← key, ← hget]
    congr 1
    exact Fin.ext (show xs.length - n + (i - (xs.length - n)) = i by omega)

/-- Non-empty bins aggregate to a candle. -/
lemma aggOHLC_of_ne_nil {l : List Candle} (h : l ≠ []) : ∃ c, aggOHLC l = some c := by
  cases l with
  | nil => exact absurd rfl h
  | cons c cs => exact ⟨_, rfl⟩

/-- A rendered boolean flag is always a tick or a cross. -/
lemma isTickCross_renderFlag (b : Bool) : isTickCross (renderFlag b) = true := by
  cases b <;> rfl

/-- A rendered boolean flag is never the no-data marker. -/
lemma renderFlag_ne_noData (b : Bool) : (renderFlag b == Cell.noData) = false := by
  cases b <;> rfl

/-- A rendered boolean flag is never the error marker. -/
lemma renderFlag_ne_err (b : Bool) : (renderFlag b == Cell.errCell) = false := by
  cases b <;> rfl

/-- A successful analysis always renders a full-analysis row. -/
lemma isFullRow_fullRow (n : String) (a : AnalyzeRow) : isFullRow (fullRow n a) = true := by
  have hs : (sigCellOf a.signal == SigCell.short || sigCellOf a.signal == SigCell.long ||
      sigCellOf a.signal == SigCell.dash) = true := by cases a.signal <;> rfl
  simp [isFullRow, fullRow, isTickCross_renderFlag, hs]

/-- The signal cell of a successful analysis is never the error marker. -/
lemma sigCellOf_ne_err (s : Signal) : (sigCellOf s == SigCell.errSig) = false := by
  cases s <;> rfl

/-- Negative `iloc` commutes with a column projection. -/
lemma ilocNeg_map {α β : Type} (f : α → β) (k : Nat) (xs : List α) :
    ilocNeg k (xs.map f) = (ilocNeg k xs).map f := by
  unfold ilocNeg
  rw [List.length_map]
  by_cases hk : 0 < k ∧ k ≤ xs.length
  · rw [if_pos hk, if_pos hk, List.get?_map]
  · rw [if_neg hk, if_neg hk]
    rfl

/-- Negative `iloc` under its guard is a positional lookup from the end. -/
lemma ilocNeg_eq_get? {α : Type} {k : Nat} {xs : List α} (h0 : 0 < k)
    (h : k ≤ xs.length) : ilocNeg k xs = xs.get? (xs.length - k) := by
  rw [ilocNeg, if_pos ⟨h0, h⟩]

/-- An element found by position in the final window is a member of it. -/
lemma mem_tailN_of_get? {α : Type} {n : Nat} (i : Nat) {xs : List α} {a : α}
    (hge : xs.length - n ≤ i) (hget : xs.get? i = some a) : a ∈ tailN n xs := by
  have hi : i < xs.length := by
    by_contra hcon
    rw [List.get?_eq_none.mpr (by omega)] at hget
    exact absurd hget (by simp)
  rw [List.get?_eq_get hi] at hget
  exact mem_tailN.mpr ⟨i, hi, hge, Option.some_inj.mp hget⟩

/-- Bounding every element of the final window of a projected column is the same
as bounding the projection at every in-window position of the series. -/
lemma forall_mem_tailN_map (data : List Candle) (f : Candle → ℚ) (n : Nat)
    (P : ℚ → Prop) :
    (∀ a ∈ tailN n (data.map f), P a) ↔
      ∀ i, ∀ hi : i < data.length, data.length - n ≤ i →
        P (f (data.get ⟨i, hi⟩)) := by
  constructor
  · intro hall i hi hn
    apply hall
    apply mem_tailN_of_get? i (by rw [List.length_map]; exact hn)
    rw [List.get?_map, List.get?_eq_get hi, Option.map_some']
  · intro hpt a ha
    obtain ⟨i, hi2, hn, hget⟩ := mem_tailN.mp ha
    have hi : i < data.length := by rw [List.length_map] at hi2; exact hi2
    have hn2 : data.length - n ≤ i := by rw [List.length_map] at hn; exact hn
    have key : f (data.get ⟨i, hi⟩) = a := by rw [← hget, List.get_map]
    exact key ▸ hpt i hi hn2

/-- Replacing one High is the same as a positional `set` on the High column. -/
lemma setHighAt_map_high (data : List Candle) (j : Nat) (v : ℚ) :
    (setHighAt data j v).map Candle.High = (data.map Candle.High).set j v := by
  induction data generalizing j with
  | nil => rfl
  | cons c cs ih =>
    cases j with
    | zero => rfl
    | succ j => simp [setHighAt, List.set, ih]

/-! ## Claim theorems -/

/-- Claim C3 (confirmed): for every daily series with at least 3 candles,
`is_inside_day` returns `some true` iff the High at index -2 is at most the High
at index -3 and the Low at index -2 is at least the Low at index -3. -/
theorem inside_day_spec (data : List Candle) (h : 3 ≤ data.length) :
    ∃ c2 c3, ilocNeg 2 data = some c2 ∧ ilocNeg 3 data = some c3 ∧
      (is_inside_day data = some true ↔ c2.High ≤ c3.High ∧ c3.Low ≤ c2.Low) := by
  obtain ⟨hk2, hc2⟩ := ilocNeg_some_of_le data (by omega) (show 2 ≤ data.length by omega)
  obtain ⟨hk3, hc3⟩ := ilocNeg_some_of_le data (by omega) h
  refine ⟨_, _, hc2, hc3, ?_⟩
  simp [is_inside_day, hc2, hc3]

/-- Witness for C3: the spec example — three candles with High/Low
(10,1), (9,2), (11,1/2) at indices -3, -2, -1 give an inside day. -/
theorem inside_day_spec_witness :
    (∃ c2 c3, ilocNeg 2 ([⟨5,10,1,5⟩, ⟨5,9,2,5⟩, ⟨5,11,1/2,5⟩] : List Candle) = some c2 ∧
      ilocNeg 3 ([⟨5,10,1,5⟩, ⟨5,9,2,5⟩, ⟨5,11,1/2,5⟩] : List Candle) = some c3 ∧
      (is_inside_day ([⟨5,10,1,5⟩, ⟨5,9,2,5⟩, ⟨5,11,1/2,5⟩] : List Candle) = some true ↔
        c2.High ≤ c3.High ∧ c3.Low ≤ c2.Low)) ∧
    is_inside_day ([⟨5,10,1,5⟩, ⟨5,9,2,5⟩, ⟨5,11,1/2,5⟩] : List Candle) = some true :=
  ⟨inside_day_spec _ (by decide), by decide⟩

/-- Claim C2 is false as stated: with exactly 2 candles the guard `len(data) > 1`
passes, so `is_red_day`/`is_green_day` evaluate the candle at index -2 and can
return true. -/
theorem red_day_two_candle_cex :
    (([⟨2, 3, 1, 1⟩, ⟨1, 2, 0, 1⟩] : List Candle).length = 2 ∧
      is_red_day ([⟨2, 3, 1, 1⟩, ⟨1, 2, 0, 1⟩] : List Candle) = true) ∧
    (([⟨1, 3, 0, 2⟩, ⟨1, 2, 0, 1⟩] : List Candle).length = 2 ∧
      is_green_day ([⟨1, 3, 0, 2⟩, ⟨1, 2, 0, 1⟩] : List Candle) = true) := by decide

/-- Claim C2 (amended): on series with fewer than 2 candles `is_red_day` and
`is_green_day` return false (the guard) and never raise; with 2 or more candles
they evaluate the index -2 candle and return its Close-vs-Open comparison. -/
theorem red_green_day_guard (data : List Candle) :
    (data.length < 2 → is_red_day data = false ∧ is_green_day data = false) ∧
    ∀ c, ilocNeg 2 data = some c →
      is_red_day data = decide (c.Close < c.Open) ∧
      is_green_day data = decide (c.Open < c.Close) := by
  constructor
  · intro h
    have h1 : ¬ (1 < data.length) := by omega
    simp [is_red_day, is_green_day, h1]
  · intro c hc
    have hlen := (ilocNeg_some_len hc).2
    have h1 : 1 < data.length := by omega
    simp [is_red_day, is_green_day, h1, hc]

/-- Witness for the amended C2: a 1-candle series gives false twice, and on the
2-candle counterexample series the returned value is the index -2 comparison. -/
theorem red_green_day_guard_witness :
    (is_red_day ([⟨1, 2, 0, 1⟩] : List Candle) = false ∧
      is_green_day ([⟨1, 2, 0, 1⟩] : List Candle) = false) ∧
    is_red_day ([⟨2, 3, 1, 1⟩, ⟨1, 2, 0, 1⟩] : List Candle) =
      decide ((⟨2, 3, 1, 1⟩ : Candle).Close < (⟨2, 3, 1, 1⟩ : Candle).Open) :=
  ⟨(red_green_day_guard _).1 (by decide),
   ((red_green_day_guard _).2 ⟨2, 3, 1, 1⟩ (by decide)).1⟩

/-- Claim C4 (code bug): predicates with too little history do not produce a
caller-visible "no data" outcome.  `is_inside_day` on 2 candles and the
of-month/of-week predicates on 1 candle raise (modelled `none`); the batch
handler turns the raised exception into the all-Error row, which differs from
the no-data row. -/
theorem inside_day_short_history_raises :
    is_inside_day ([⟨1, 2, 0, 1⟩, ⟨1, 2, 0, 1⟩] : List Candle) = none ∧
    is_high_of_month ([⟨1, 2, 0, 1⟩] : List Candle) = none ∧
    is_low_of_week ([⟨1, 2, 0, 1⟩] : List Candle) = none ∧
    processSymbol "Gold" "GC=F" Preflight.ok none = errorRow "Gold" "GC=F" ∧
    errorRow "Gold" "GC=F" ≠ noDataRow "Gold" "GC=F" := by decide

/-- Claim C10 (confirmed): with at least 2 but fewer than 22 candles, the
of-month predicates compare the index -2 candle against the extreme over ALL
candles (the 22-candle window silently truncates), and the of-week predicates
do the same below 5 candles. -/
theorem short_history_window_truncation (data : List Candle)
    (h2 : 2 ≤ data.length) (h22 : data.length < 22) :
    is_high_of_month data = highVsAll data ∧
    is_low_of_month data = lowVsAll data ∧
    (data.length < 5 →
      is_high_of_week data = highVsAll data ∧ is_low_of_week data = lowVsAll data) := by
  refine ⟨?_, ?_, fun h5 => ⟨?_, ?_⟩⟩
  · rw [is_high_of_month, highVsAll, tailN_of_le (by rw [List.length_map]; omega)]
  · rw [is_low_of_month, lowVsAll, tailN_of_le (by rw [List.length_map]; omega)]
  · rw [is_high_of_week, highVsAll, tailN_of_le (by rw [List.length_map]; omega)]
  · rw [is_low_of_week, lowVsAll, tailN_of_le (by rw [List.length_map]; omega)]

/-- Witness for C10: on a 3-candle series whose middle candle has the top High,
the of-month predicate agrees with the whole-series comparison and returns true
with far less than a month of history. -/
theorem short_history_window_truncation_witness :
    (is_high_of_month ([⟨1,5,0,1⟩, ⟨1,9,0,1⟩, ⟨1,7,0,1⟩] : List Candle) =
        highVsAll ([⟨1,5,0,1⟩, ⟨1,9,0,1⟩, ⟨1,7,0,1⟩] : List Candle) ∧
      is_low_of_month ([⟨1,5,0,1⟩, ⟨1,9,0,1⟩, ⟨1,7,0,1⟩] : List Candle) =
        lowVsAll ([⟨1,5,0,1⟩, ⟨1,9,0,1⟩, ⟨1,7,0,1⟩] : List Candle) ∧
      (([⟨1,5,0,1⟩, ⟨1,9,0,1⟩, ⟨1,7,0,1⟩] : List Candle).length < 5 →
        is_high_of_week ([⟨1,5,0,1⟩, ⟨1,9,0,1⟩, ⟨1,7,0,1⟩] : List Candle) =
            highVsAll ([⟨1,5,0,1⟩, ⟨1,9,0,1⟩, ⟨1,7,0,1⟩] : List Candle) ∧
          is_low_of_week ([⟨1,5,0,1⟩, ⟨1,9,0,1⟩, ⟨1,7,0,1⟩] : List Candle) =
            lowVsAll ([⟨1,5,0,1⟩, ⟨1,9,0,1⟩, ⟨1,7,0,1⟩] : List Candle))) ∧
    is_high_of_month ([⟨1,5,0,1⟩, ⟨1,9,0,1⟩, ⟨1,7,0,1⟩] : List Candle) = some true :=
  ⟨short_history_window_truncation _ (by decide) (by decide), by decide⟩

/-- Claim C5 (confirmed): `is_inside_week` is false when the derived weekly
series has fewer than 2 candles, and otherwise is true iff the most recent
weekly candle's High is at most the prior weekly candle's High and its Low is
at least the prior weekly candle's Low. -/
theorem inside_week_spec (data : List Bar) :
    ((get_weekly_data data).length < 2 → is_inside_week data = false) ∧
    ∀ w1 w2, ilocNeg 1 (get_weekly_data data) = some w1 →
      ilocNeg 2 (get_weekly_data data) = some w2 →
      (is_inside_week data = true ↔ w1.2.High ≤ w2.2.High ∧ w2.2.Low ≤ w1.2.Low) := by
  constructor
  · intro h
    simp [is_inside_week, h]
  · intro w1 w2 h1 h2
    have hlen := (ilocNeg_some_len h2).2
    have hnl : ¬ ((get_weekly_data data).length < 2) := by omega
    simp [is_inside_week, hnl, h1, h2]

/-- Witness for C5: a one-week daily series gives false; a two-week daily series
whose second week stays inside the first gives true. -/
theorem inside_week_spec_witness :
    is_inside_week [((0 : Int), (⟨1, 10, 0, 1⟩ : Candle))] = false ∧
    is_inside_week [((0 : Int), (⟨1, 10, 0, 1⟩ : Candle)), ((96 : Int), ⟨1, 5, 2, 1⟩)] = true :=
  ⟨(inside_week_spec _).1 (by decide),
   ((inside_week_spec _).2 ((240 : Int), ⟨1, 5, 2, 1⟩) ((72 : Int), ⟨1, 10, 0, 1⟩)
      (by decide) (by decide)).mpr (by decide)⟩

/-- Claim C7 (confirmed): with at least 2 daily candles the derived signal is
SHORT exactly when high-of-month and red-day both hold, LONG exactly when
low-of-month and green-day both hold, and the two conditions never both hold
(a session cannot close both below and above its open). -/
theorem signal_cases (data : List Candle) (h : 2 ≤ data.length) :
    ∃ s, signal_of data = some s ∧
      (s = Signal.SHORT ↔
        is_high_of_month data = some true ∧ is_red_day data = true) ∧
      (s = Signal.LONG ↔
        is_low_of_month data = some true ∧ is_green_day data = true) ∧
      ¬((is_high_of_month data = some true ∧ is_red_day data = true) ∧
        (is_low_of_month data = some true ∧ is_green_day data = true)) := by
  obtain ⟨hk, hc⟩ := ilocNeg_some_of_le data (by omega) h
  set c := data.get ⟨data.length - 2, hk⟩ with hcdef
  obtain ⟨hkH, hcH⟩ := ilocNeg_some_of_le (data.map Candle.High) (show 0 < 2 by omega)
    (show 2 ≤ (data.map Candle.High).length by rw [List.length_map]; omega)
  obtain ⟨hkL, hcL⟩ := ilocNeg_some_of_le (data.map Candle.Low) (show 0 < 2 by omega)
    (show 2 ≤ (data.map Candle.Low).length by rw [List.length_map]; omega)
  obtain ⟨hom, homEq⟩ : ∃ b, is_high_of_month data = some b := by
    rw [is_high_of_month, hcH]; exact ⟨_, rfl⟩
  obtain ⟨lom, lomEq⟩ : ∃ b, is_low_of_month data = some b := by
    rw [is_low_of_month, hcL]; exact ⟨_, rfl⟩
  have h1 : 1 < data.length := by omega
  have hred : is_red_day data = decide (c.Close < c.Open) := by
    simp [is_red_day, h1, hc]
  have hgreen : is_green_day data = decide (c.Open < c.Close) := by
    simp [is_green_day, h1, hc]
  have sEq : signal_of data =
      some (if hom && is_red_day data then Signal.SHORT
            else if lom && is_green_day data then Signal.LONG
            else Signal.noSignal) := by
    simp only [signal_of, homEq, lomEq]
  refine ⟨_, sEq, ?_, ?_, ?_⟩ <;>
    simp only [homEq, lomEq, hred, hgreen] <;>
    by_cases hro : c.Close < c.Open <;> by_cases hgo : c.Open < c.Close <;>
    first
      | exact absurd hgo (lt_asymm hro)
      | cases hom <;> cases lom <;> simp [hro, hgo]

/-- Witness for C7: a 2-candle series whose closed session is a red monthly
high, yielding the SHORT signal. -/
theorem signal_cases_witness :
    ∃ s, signal_of ([⟨5, 10, 1, 4⟩, ⟨4, 7, 3, 5⟩] : List Candle) = some s ∧
      (s = Signal.SHORT ↔
        is_high_of_month ([⟨5, 10, 1, 4⟩, ⟨4, 7, 3, 5⟩] : List Candle) = some true ∧
          is_red_day ([⟨5, 10, 1, 4⟩, ⟨4, 7, 3, 5⟩] : List Candle) = true) ∧
      (s = Signal.LONG ↔
        is_low_of_month ([⟨5, 10, 1, 4⟩, ⟨4, 7, 3, 5⟩] : List Candle) = some true ∧
          is_green_day ([⟨5, 10, 1, 4⟩, ⟨4, 7, 3, 5⟩] : List Candle) = true) ∧
      ¬((is_high_of_month ([⟨5, 10, 1, 4⟩, ⟨4, 7, 3, 5⟩] : List Candle) = some true ∧
          is_red_day ([⟨5, 10, 1, 4⟩, ⟨4, 7, 3, 5⟩] : List Candle) = true) ∧
        (is_low_of_month ([⟨5, 10, 1, 4⟩, ⟨4, 7, 3, 5⟩] : List Candle) = some true ∧
          is_green_day ([⟨5, 10, 1, 4⟩, ⟨4, 7, 3, 5⟩] : List Candle) = true)) :=
  signal_cases _ (by decide)

/-- Claim C8 is false as stated: for a five-column two-level header with an
identical inner label, the collapse (rule 1) fires and then the degenerate
relabeling (rule 2) ADDITIONALLY fires — the output is the canonical names,
not the collapse-only labels. -/
theorem normalizer_rules_cex :
    rule2Cond (collapseMulti (RawCols.multi
      [("Open", "P"), ("High", "P"), ("Low", "P"), ("Close", "P"), ("Volume", "P")])) = true ∧
    fix_columns (RawCols.multi
      [("Open", "P"), ("High", "P"), ("Low", "P"), ("Close", "P"), ("Volume", "P")]) =
      some ["Open", "High", "Low", "Close", "Volume"] ∧
    fix_columns (RawCols.multi
      [("Open", "P"), ("High", "P"), ("Low", "P"), ("Close", "P"), ("Volume", "P")]) ≠
      some ((collapseMulti (RawCols.multi
        [("Open", "P"), ("High", "P"), ("Low", "P"), ("Close", "P"), ("Volume", "P")])).map
        renameAdj) := by decide

/-- Claim C8 (amended): the two-level collapse is applied unconditionally first,
and the later rules run on the collapsed labels — a two-level input is treated
exactly like its collapsed single-level form.  When the degenerate-label
condition holds on the collapsed labels, rule 2 additionally fires: with
exactly 5 columns the output is the canonical positional names; with 6 or
more columns the 5-name slice mismatches the column count and the assignment
raises (modelled `none`). -/
theorem normalizer_collapse_then_chain (cs : List (String × String)) :
    fix_columns (RawCols.multi cs) = fix_columns (RawCols.single (cs.map Prod.snd)) ∧
    (rule2Cond (cs.map Prod.snd) = true → cs.length = 5 →
      fix_columns (RawCols.multi cs) = some canonical5) ∧
    (rule2Cond (cs.map Prod.snd) = true → 5 < cs.length →
      fix_columns (RawCols.multi cs) = none) := by
  refine ⟨rfl, ?_, ?_⟩
  · intro h h5
    have hlen : (cs.map Prod.snd).length = 5 := by rw [List.length_map, h5]
    simp only [fix_columns, collapseMulti, h, if_true, hlen]
    decide
  · intro h h6
    have hne : ¬ ((canonical5.take (cs.map Prod.snd).length).length =
        (cs.map Prod.snd).length) := by
      rw [List.length_take, List.length_map, show canonical5.length = 5 from rfl]
      omega
    simp only [fix_columns, collapseMulti, h, if_true, if_neg hne]
    rfl

/-- Witness for the amended C8: the five-identical-inner-labels header repairs
to the canonical names, the six-column one raises the length mismatch. -/
theorem normalizer_collapse_then_chain_witness :
    (fix_columns (RawCols.multi
        [("Open", "P"), ("High", "P"), ("Low", "P"), ("Close", "P"), ("Volume", "P")]) =
      fix_columns (RawCols.single
        (([("Open", "P"), ("High", "P"), ("Low", "P"), ("Close", "P"), ("Volume", "P")] :
          List (String × String)).map Prod.snd))) ∧
    fix_columns (RawCols.multi
        [("Open", "P"), ("High", "P"), ("Low", "P"), ("Close", "P"), ("Volume", "P")]) =
      some canonical5 ∧
    fix_columns (RawCols.multi
        [("Open", "P"), ("High", "P"), ("Low", "P"), ("Close", "P"), ("Volume", "P"),
          ("Extra", "P")]) = none :=
  ⟨(normalizer_collapse_then_chain _).1,
   (normalizer_collapse_then_chain _).2.1 (by decide) (by decide),
   (normalizer_collapse_then_chain
     [("Open", "P"), ("High", "P"), ("Low", "P"), ("Close", "P"), ("Volume", "P"),
       ("Extra", "P")]).2.2 (by decide) (by decide)⟩

/-- Claim C9 (confirmed): the batch loop emits exactly one row per configured
instrument, each row is exactly one of full-analysis, all-No-data, or
all-Error, and the three shapes are mutually exclusive; no per-instrument
outcome escapes the loop (the embedding is a total function). -/
theorem batch_row_trichotomy (symbols : List (String × String))
    (pre : String → Preflight) (ana : String → Option AnalyzeRow) :
    (runGroup symbols pre ana).length = symbols.length ∧
    ∀ r ∈ runGroup symbols pre ana,
      (isFullRow r = true ∧ isNoDataRow r = false ∧ isErrorRow r = false) ∨
      (isNoDataRow r = true ∧ isFullRow r = false ∧ isErrorRow r = false) ∨
      (isErrorRow r = true ∧ isFullRow r = false ∧ isNoDataRow r = false) := by
  refine ⟨List.length_map _ _, ?_⟩
  intro r hr
  obtain ⟨p, _, hp⟩ := List.mem_map.mp hr
  subst hp
  cases hpre : pre p.1 with
  | empty => right; left; exact ⟨rfl, rfl, rfl⟩
  | raised => right; left; exact ⟨rfl, rfl, rfl⟩
  | ok =>
    cases hana : ana p.1 with
    | none => right; right; exact ⟨rfl, rfl, rfl⟩
    | some a =>
      left
      refine ⟨isFullRow_fullRow _ _, ?_, ?_⟩
      · simp [isNoDataRow, processSymbol, fullRow, renderFlag_ne_noData]
      · simp [isErrorRow, processSymbol, fullRow, renderFlag_ne_err, sigCellOf_ne_err]

/-- Witness for C9: a single instrument whose pre-flight succeeds but whose
analysis raises yields exactly the all-Error row. -/
theorem batch_row_trichotomy_witness :
    (runGroup [("GC=F", "Gold")] (fun _ => Preflight.ok) (fun _ => none)).length =
      ([("GC=F", "Gold")] : List (String × String)).length ∧
    ((isFullRow (errorRow "Gold" "GC=F") = true ∧
        isNoDataRow (errorRow "Gold" "GC=F") = false ∧
        isErrorRow (errorRow "Gold" "GC=F") = false) ∨
      (isNoDataRow (errorRow "Gold" "GC=F") = true ∧
        isFullRow (errorRow "Gold" "GC=F") = false ∧
        isErrorRow (errorRow "Gold" "GC=F") = false) ∨
      (isErrorRow (errorRow "Gold" "GC=F") = true ∧
        isFullRow (errorRow "Gold" "GC=F") = false ∧
        isNoDataRow (errorRow "Gold" "GC=F") = false)) :=
  ⟨(batch_row_trichotomy _ _ _).1,
   (batch_row_trichotomy [("GC=F", "Gold")] (fun _ => Preflight.ok) (fun _ => none)).2
     (errorRow "Gold" "GC=F") (by decide)⟩

/-- Claim C1 (confirmed): with at least 22 daily candles, `is_high_of_month` is
true iff the index -2 High is an upper bound of the Highs over the most recent
22 candles (positions `length - 22` to `length - 1`, the still-forming candle
included), `is_low_of_month` is symmetric with the minimum Low, and on a
30-candle series raising the High of any other candle of the window above the
index -2 High flips the result to false. -/
theorem month_extreme_window_iff (data : List Candle) (h : 22 ≤ data.length) :
    ∃ c2, ilocNeg 2 data = some c2 ∧
      (is_high_of_month data = some true ↔
        ∀ i, ∀ hi : i < data.length, data.length - 22 ≤ i →
          (data.get ⟨i, hi⟩).High ≤ c2.High) ∧
      (is_low_of_month data = some true ↔
        ∀ i, ∀ hi : i < data.length, data.length - 22 ≤ i →
          c2.Low ≤ (data.get ⟨i, hi⟩).Low) ∧
      (data.length = 30 →
        ∀ j, ∀ hj : j < 30, 8 ≤ j → j ≠ 28 → ∀ v, c2.High < v →
          is_high_of_month (setHighAt data j v) = some false) := by
  have h2 : 2 ≤ data.length := by omega
  obtain ⟨hk, hcg⟩ := ilocNeg_some_of_le data (show 0 < 2 by omega) h2
  obtain ⟨c2, hc⟩ : ∃ c2, ilocNeg 2 data = some c2 := ⟨_, hcg⟩
  have hdget : data.get? (data.length - 2) = some c2 := by
    rw [← ilocNeg_eq_get? (show 0 < 2 by omega) h2]
    exact hc
  refine ⟨c2, hc, ?_, ?_, ?_⟩
  · -- high-of-month window characterization
    have hWA : is_high_of_month data =
        some (decide ((c2.High : WithBot ℚ) =
          (tailN 22 (data.map Candle.High)).maximum)) := by
      rw [is_high_of_month, ilocNeg_map, hc, Option.map_some', Option.map_some']
    rw [hWA]
    constructor
    · intro hsome
      have hP := of_decide_eq_true (Option.some_inj.mp hsome)
      have hiff := List.maximum_eq_coe_iff.mp hP.symm
      exact (forall_mem_tailN_map data Candle.High 22 (fun a => a ≤ c2.High)).mp hiff.2
    · intro hpt
      have hub := (forall_mem_tailN_map data Candle.High 22 (fun a => a ≤ c2.High)).mpr hpt
      have hmem : c2.High ∈ tailN 22 (data.map Candle.High) := by
        apply mem_tailN_of_get? (data.length - 2) (by rw [List.length_map]; omega)
        rw [List.get?_map, hdget, Option.map_some']
      have hmax := List.maximum_eq_coe_iff.mpr ⟨hmem, hub⟩
      exact congrArg some (decide_eq_true hmax.symm)
  · -- low-of-month window characterization
    have hWA : is_low_of_month data =
        some (decide ((c2.Low : WithTop ℚ) =
          (tailN 22 (data.map Candle.Low)).minimum)) := by
      rw [is_low_of_month, ilocNeg_map, hc, Option.map_some', Option.map_some']
    rw [hWA]
    constructor
    · intro hsome
      have hP := of_decide_eq_true (Option.some_inj.mp hsome)
      have hiff := List.minimum_eq_coe_iff.mp hP.symm
      exact (forall_mem_tailN_map data Candle.Low 22 (fun a => c2.Low ≤ a)).mp hiff.2
    · intro hpt
      have hlb := (forall_mem_tailN_map data Candle.Low 22 (fun a => c2.Low ≤ a)).mpr hpt
      have hmem : c2.Low ∈ tailN 22 (data.map Candle.Low) := by
        apply mem_tailN_of_get? (data.length - 2) (by rw [List.length_map]; omega)
        rw [List.get?_map, hdget, Option.map_some']
      have hmin := List.minimum_eq_coe_iff.mpr ⟨hmem, hlb⟩
      exact congrArg some (decide_eq_true hmin.symm)
  · -- perturbation: raising any other in-window High above the -2 High
    intro h30 j hj hj8 hjne v hv
    have hmap := setHighAt_map_high data j v
    have hL : ((data.map Candle.High).set j v).length = data.length := by
      rw [List.length_set, List.length_map]
    have hg28 : ((data.map Candle.High).set j v).get? (data.length - 2) =
        some c2.High := by
      rw [List.get?_eq_getElem?, show data.length - 2 = 28 from by omega,
        List.getElem?_set_ne hjne, ← List.get?_eq_getElem?, List.get?_map,
        show (28 : Nat) = data.length - 2 from by omega, hdget, Option.map_some']
    have hgj : ((data.map Candle.High).set j v).get? j = some v := by
      rw [List.get?_eq_getElem?, List.getElem?_set_eq (by rw [List.length_map]; omega)]
    have hiloc : ilocNeg 2 ((setHighAt data j v).map Candle.High) = some c2.High := by
      rw [hmap, ilocNeg_eq_get? (show 0 < 2 by omega) (by rw [hL]; omega), hL]
      exact hg28
    rw [is_high_of_month, hiloc, Option.map_some']
    refine congrArg some (decide_eq_false ?_)
    intro heq
    have hmm := List.maximum_eq_coe_iff.mp heq.symm
    have hvmem : v ∈ tailN 22 ((setHighAt data j v).map Candle.High) := by
      rw [hmap]
      exact mem_tailN_of_get? j (by rw [hL]; omega) hgj
    exact absurd (hmm.2 v hvmem) (not_le.mpr hv)

/-- Witness for C1: on the synthetic 30-candle series the predicate returns
true, and raising the High of the in-window candle at position 10 above the
index -2 High (9) flips it to false. -/
theorem month_extreme_window_iff_witness :
    is_high_of_month exMonthSeries = some true ∧
    is_high_of_month (setHighAt exMonthSeries 10 10) = some false := by
  obtain ⟨c2, hc2, hhigh, -, hpert⟩ := month_extreme_window_iff exMonthSeries (by decide)
  have hc2v : c2 = ⟨1, 9, 0, 1⟩ := by
    have hx : ilocNeg 2 exMonthSeries = some (⟨1, 9, 0, 1⟩ : Candle) := by decide
    exact (Option.some_inj.mp (hx.symm.trans hc2)).symm
  subst hc2v
  refine ⟨hhigh.mpr (by decide), ?_⟩
  exact hpert (by decide) 10 (by decide) (by decide) (by decide) 10 (by decide)

/-- Claim C6 (confirmed): in shifted mode a bar timestamped exactly at the
session boundary (2 hours past UTC midnight of day D, i.e. local midnight
minus the shift after adding it back) is keyed to session D both by the
code's subtract-2h day floor and by the spec's (bar time + 2h) day floor,
and the resampled daily series contains a candle labelled at that session. -/
theorem ftse_shift_boundary_attribution (bars : List Bar) (c : Candle) (D : Int)
    (hmem : (24 * D + 2, c) ∈ bars) :
    dayKey (24 * D + 2 - 2) = D ∧
    dayKey (24 * D + 2 + 2) = D ∧
    ∃ cd, (24 * D + 2, cd) ∈ ftseDaily bars := by
  have hkey : dayKey (24 * D + 2 - 2) = D := by
    show (24 * D + 2 - 2).fdiv 24 = D
    rw [show (24 * D + 2 - 2 : Int) = 24 * D by ring,
      Int.fdiv_eq_ediv _ (by norm_num)]
    omega
  have hkey2 : dayKey (24 * D + 2 + 2) = D := by
    show (24 * D + 2 + 2).fdiv 24 = D
    rw [show (24 * D + 2 + 2 : Int) = 24 * D + 4 by ring,
      Int.fdiv_eq_ediv _ (by norm_num)]
    omega
  refine ⟨hkey, hkey2, ?_⟩
  have hD : D ∈ (bars.map (fun b => dayKey (b.1 - 2))).dedup := by
    rw [List.mem_dedup]
    exact List.mem_map.mpr ⟨(24 * D + 2, c), hmem, hkey⟩
  have hgrp : c ∈ (bars.filter (fun b => dayKey (b.1 - 2) == D)).map Prod.snd :=
    List.mem_map.mpr ⟨(24 * D + 2, c),
      List.mem_filter.mpr ⟨hmem, by rw [beq_iff_eq]; exact hkey⟩, rfl⟩
  obtain ⟨cd, hcd⟩ := aggOHLC_of_ne_nil (List.ne_nil_of_mem hgrp)
  refine ⟨cd, ?_⟩
  unfold ftseDaily resampleAgg
  exact List.mem_filterMap.mpr ⟨D, hD, by rw [hcd, Option.map_some']⟩

/-- Witness for C6: a single bar at hour 2 (the boundary of epoch day 0) is
attributed to session 0 and survives into the shifted daily series. -/
theorem ftse_shift_boundary_attribution_witness :
    dayKey (24 * 0 + 2 - 2) = 0 ∧
    dayKey (24 * 0 + 2 + 2) = 0 ∧
    ∃ cd, ((24 * 0 + 2 : Int), cd) ∈ ftseDaily [((2 : Int), (⟨1, 2, 0, 1⟩ : Candle))] :=
  ftse_shift_boundary_attribution [((2 : Int), ⟨1, 2, 0, 1⟩)] ⟨1, 2, 0, 1⟩ 0 (by decide)

end MarketDashboard
